import Mathlib

/-!
Formal model of the two algorithmic cores of `pre-commit-go`:

* the concurrent check-execution scheduler (`run` in the main package, both
  the legacy `pre-commit-go.go` version and the current version that drives
  `checks.Check` values), and
* the coverage-profile merge and threshold analyzer (`TestCoverage.run`,
  again in both generations of the code).

Strings are modelled as Lean `String`/`List Char` (Go strings are byte
slices; all inputs of interest here are ASCII, where the two coincide).
Go `int` counters that are only ever non-negative (durations, lengths) are
modelled as `Nat`; coverage counts are `Int` as in Go; coverage percentages
are modelled as exact rationals (`ℚ`) — the binary float64 rounding of
`strconv.ParseFloat`/`fmt` is abstracted away, no claim here depends on it.

External effects (process launch, file IO, the environment variable
`TRAVIS_JOB_ID`) appear as explicit inputs of the modelled functions:
captured process output, exit/launch results and file contents are data,
the functions below reproduce the source's control flow over that data.
-/

/-! ## Go string primitives used by the source

`strings.SplitN(s, sep, 2)` and `strings.Split(s, sep)` for a one-character
separator (the source only ever splits on `" "`, `"\t"` and `"\n"`), and
`strings.TrimLeft(s, "\t")`. -/

/-- Go `strings.SplitN(s, sep, 2)` for a single-character separator `c`:
split `s` around the first occurrence of `c`; `[s]` when `c` does not occur.
`acc` holds the (reversed) characters scanned so far. -/
def splitN2Go (c : Char) (acc : List Char) : List Char → List (List Char)
  | [] => [acc.reverse]
  | x :: xs => if x = c then [acc.reverse, xs] else splitN2Go c (x :: acc) xs

/-- Go `strings.SplitN(s, string c, 2)`. -/
def splitN2c (c : Char) (s : List Char) : List (List Char) :=
  splitN2Go c [] s

/-- Go `strings.Split(s, string c)` (unbounded split). -/
def splitAllGo (c : Char) (acc : List Char) : List Char → List (List Char)
  | [] => [acc.reverse]
  | x :: xs => if x = c then acc.reverse :: splitAllGo c [] xs else splitAllGo c (x :: acc) xs

/-- Go `strings.Split(s, string c)`. -/
def splitAllC (c : Char) (s : List Char) : List (List Char) :=
  splitAllGo c [] s

/-- Go `strings.TrimLeft(s, "\t")`. -/
def dropTabs (s : List Char) : List Char :=
  s.dropWhile (fun c => c = '\t')

/-- Digit run of Go `strconv.Atoi`: `acc` is the value accumulated so far;
fails on the first non-digit character. -/
def digitsToNatGo (acc : Nat) : List Char → Option Nat
  | [] => some acc
  | c :: rest => if c.isDigit then digitsToNatGo (10 * acc + (c.toNat - 48)) rest else none

/-- Parse a non-empty all-digit string to a `Nat`; `none` otherwise. -/
def digitsToNat (s : List Char) : Option Nat :=
  match s with
  | [] => none
  | _ => digitsToNatGo 0 s

/-- Go `strconv.Atoi`: optional sign followed by at least one digit.
(The `ErrRange` overflow of 64-bit integers is out of model; coverage counts
are far below it.) -/
def atoi (s : List Char) : Option Int :=
  match s with
  | '+' :: rest => (digitsToNat rest).map (fun n => (n : Int))
  | '-' :: rest => (digitsToNat rest).map (fun n => -(n : Int))
  | _ => (digitsToNat s).map (fun n => (n : Int))

/-! ## `rsplitn` (pre-commit-go.go lines 186-208)

`reverse` reverses the string rune-wise; `rsplitn(s, sep, n)` splits the
reversed string with `strings.SplitN`, then its swap loop reverses the list
of pieces and reverses each piece (`items[i], items[j] =
reverse(items[j]), reverse(items[i])` for all mirrored pairs plus the
middle element), so the net effect is `reverse (map reverse pieces)`.
Both call sites use `sep = " "` and `n = 2`. -/

/-- `rsplitn(s, string sep, 2)` from the source: split around the *last*
occurrence of `sep`. -/
def rsplitn2 (sep : Char) (s : List Char) : List (List Char) :=
  ((splitN2c sep s.reverse).map List.reverse).reverse

/-! ## Coverage-profile merge (TestCoverage.run, merge step)

The merge loop over one profile line (`checks` package lines 600-607,
identically pre-commit-go.go lines 430-437) is

    items := rsplitn(s.Text(), " ", 2)
    count, err = strconv.Atoi(items[1])
    if err != nil { break }            // then: return err
    counts[items[0]] += int(count)

`items[1]` is an out-of-range index — a runtime panic — whenever the line
contains no space at all (`rsplitn` then yields a single piece). -/

/-- Outcome of processing one non-header profile line. -/
inductive LineResult where
  /-- The line split into a statement key and a parsed trailing count. -/
  | ok (key : List Char) (count : Int)
  /-- `strconv.Atoi` failed on the trailing field: merge aborts with this error. -/
  | badCount (field : List Char)
  /-- `items[1]` index out of range: the program panics. -/
  | crash
deriving DecidableEq

/-- One iteration of the merge loop on a single profile line. -/
def parseLine (line : String) : LineResult :=
  match rsplitn2 ' ' line.data with
  | [k, cstr] =>
    match atoi cstr with
    | some n => .ok k n
    | none => .badCount cstr
  | _ => .crash

/-- `true` iff the merge loop accepts the line (key/count successfully split
and parsed). -/
def parsesOk (line : String) : Bool :=
  match parseLine line with
  | .ok _ _ => true
  | _ => false

/-- Go map update `counts[k] += v` on an association-list model of
`map[string]int` (insertion order of first occurrence preserved; a missing
key reads as zero). -/
def mapIncr (m : List (List Char × Int)) (k : List Char) (v : Int) : List (List Char × Int) :=
  match m with
  | [] => [(k, v)]
  | (k', v') :: rest => if k' = k then (k', v' + v) :: rest else (k', v') :: mapIncr rest k v

/-- Go map read `counts[k]` (zero when absent). -/
def lookup0 (m : List (List Char × Int)) (k : List Char) : Int :=
  match m with
  | [] => 0
  | (k', v') :: rest => if k' = k then v' else lookup0 rest k

/-- Result of the merge step over the enumerated profile files. -/
inductive MergeResult where
  /-- All lines merged; `counts` is the accumulated map. -/
  | ok (counts : List (List Char × Int))
  /-- A trailing field failed `strconv.Atoi`: the merge returns this parse error. -/
  | parseError (field : List Char)
  /-- A line with no space made `items[1]` panic. -/
  | crash
deriving DecidableEq

/-- The merge loop over the non-header lines of one profile file. -/
def mergeLines (counts : List (List Char × Int)) : List String → MergeResult
  | [] => .ok counts
  | line :: rest =>
    match parseLine line with
    | .ok k n => mergeLines (mapIncr counts k n) rest
    | .badCount f => .parseError f
    | .crash => .crash

/-- The merge over all profile files; the first `s.Scan()` of the source
strips the header line of each file, hence `file.drop 1`. -/
def mergeFiles (counts : List (List Char × Int)) : List (List String) → MergeResult
  | [] => .ok counts
  | file :: rest =>
    match mergeLines counts (file.drop 1) with
    | .ok counts2 => mergeFiles counts2 rest
    | .parseError f => .parseError f
    | .crash => .crash

/-- Merge of a list of per-directory coverage-profile files (each given as
its list of lines), starting from the empty map, as `TestCoverage.run` does. -/
def mergeProfiles (files : List (List String)) : MergeResult :=
  mergeFiles [] files

/-! ### The summed-counts specification of the merge (claim side) -/

/-- The contribution of one profile line to statement key `K`. -/
def keyCount (K : List Char) (line : String) : Int :=
  match parseLine line with
  | .ok k n => if k = K then n else 0
  | _ => 0

/-- The total count a single profile file records for statement key `K`. -/
def profileCount (K : List Char) (file : List String) : Int :=
  ((file.drop 1).map (keyCount K)).sum

/-- The sum of `K`'s counts across all source profiles (a profile not
containing `K` contributes 0). -/
def specSum (K : List Char) (files : List (List String)) : Int :=
  (files.map (profileCount K)).sum

theorem lookup0_mapIncr (m : List (List Char × Int)) (k K : List Char) (v : Int) :
    lookup0 (mapIncr m k v) K = lookup0 m K + (if k = K then v else 0) := by
  induction m with
  | nil =>
    by_cases h : k = K <;> simp [mapIncr, lookup0, h]
  | cons p rest ih =>
    obtain ⟨k', v'⟩ := p
    by_cases h1 : k' = k
    · subst h1
      by_cases h2 : k' = K <;> simp [mapIncr, lookup0, h2]
    · by_cases h2 : k' = K
      · subst h2
        have hk : ¬ k = k' := fun h => h1 h.symm
        simp [mapIncr, lookup0, h1, hk]
      · simp [mapIncr, lookup0, h1, h2, ih]

theorem mergeLines_ok (lines : List String) (counts : List (List Char × Int))
    (h : ∀ line ∈ lines, parsesOk line = true) :
    ∃ m, mergeLines counts lines = .ok m ∧
      ∀ K, lookup0 m K = lookup0 counts K + ((lines.map (keyCount K)).sum) := by
  induction lines generalizing counts with
  | nil => exact ⟨counts, rfl, by simp⟩
  | cons line rest ih =>
    have hline : parsesOk line = true := h line (List.mem_cons_self line rest)
    cases hp : parseLine line with
    | ok k n =>
      obtain ⟨m, hm, hl⟩ := ih (mapIncr counts k n)
        (fun l hl => h l (List.mem_cons_of_mem _ hl))
      refine ⟨m, by simp [mergeLines, hp, hm], fun K => ?_⟩
      rw [hl K, lookup0_mapIncr]
      simp [keyCount, hp, add_assoc]
    | badCount f => simp [parsesOk, hp] at hline
    | crash => simp [parsesOk, hp] at hline

theorem mergeFiles_ok (files : List (List String)) (counts : List (List Char × Int))
    (h : ∀ file ∈ files, ∀ line ∈ file.drop 1, parsesOk line = true) :
    ∃ m, mergeFiles counts files = .ok m ∧
      ∀ K, lookup0 m K = lookup0 counts K + specSum K files := by
  induction files generalizing counts with
  | nil => exact ⟨counts, rfl, by simp [specSum]⟩
  | cons file rest ih =>
    obtain ⟨m1, hm1, hl1⟩ := mergeLines_ok (file.drop 1) counts
      (h file (List.mem_cons_self file rest))
    obtain ⟨m, hm, hl⟩ := ih m1
      (fun f hf => h f (List.mem_cons_of_mem _ hf))
    refine ⟨m, by simp only [mergeFiles, hm1, hm], fun K => ?_⟩
    rw [hl K, hl1 K]
    simp [specSum, profileCount, add_assoc]

/-- C1: for every set of per-directory coverage profiles and every statement
key `K`, the merged profile's count for `K` equals the sum of `K`'s counts
across all profiles in which `K` appears; a profile not containing `K`
contributes 0, and a key present in a single profile is carried through with
its count unchanged (its merged count is that profile's sum for `K`). -/
theorem merge_sum_counts (files : List (List String)) (K : List Char)
    (h : ∀ file ∈ files, ∀ line ∈ file.drop 1, parsesOk line = true) :
    ∃ m, mergeProfiles files = .ok m ∧ lookup0 m K = specSum K files := by
  obtain ⟨m, hm, hl⟩ := mergeFiles_ok files [] h
  exact ⟨m, hm, by simpa [lookup0] using hl K⟩

/-- The two example profiles of the specification (§8): `P1` records count 3
for `a.go:1.1,1.5 2`; `P2` records 4 for it and 1 for `b.go:2.1,2.5 1`. -/
def demoP1 : List String := ["mode: count", "a.go:1.1,1.5 2 3"]

/-- Second example profile, sharing one statement key with `demoP1`. -/
def demoP2 : List String := ["mode: count", "a.go:1.1,1.5 2 4", "b.go:2.1,2.5 1 1"]

/-- The statement key shared by the two example profiles. -/
def demoKey : List Char := "a.go:1.1,1.5 2".data

/-- C1 witness: on the specification's own example the merged count of the
shared key is `3 + 4 = 7`. -/
theorem merge_sum_counts_witness :
    (∃ m, mergeProfiles [demoP1, demoP2] = .ok m ∧
      lookup0 m demoKey = specSum demoKey [demoP1, demoP2])
    ∧ specSum demoKey [demoP1, demoP2] = 7 :=
  ⟨merge_sum_counts [demoP1, demoP2] demoKey (by decide), by decide⟩

/-- C4: merging is commutative and associative in the set of input profiles:
permuting the order in which the per-directory profile files are merged
yields the same merged mapping from statement keys to counts. -/
theorem merge_perm_invariant (files files' : List (List String))
    (hperm : files.Perm files')
    (h : ∀ file ∈ files, ∀ line ∈ file.drop 1, parsesOk line = true) :
    ∃ m m', mergeProfiles files = .ok m ∧ mergeProfiles files' = .ok m' ∧
      ∀ K, lookup0 m K = lookup0 m' K := by
  have h' : ∀ file ∈ files', ∀ line ∈ file.drop 1, parsesOk line = true :=
    fun f hf => h f (hperm.mem_iff.mpr hf)
  obtain ⟨m, hm, hl⟩ := mergeFiles_ok files [] h
  obtain ⟨m', hm', hl'⟩ := mergeFiles_ok files' [] h'
  refine ⟨m, m', hm, hm', fun K => ?_⟩
  have hsum : specSum K files = specSum K files' :=
    (hperm.map (profileCount K)).sum_eq
  rw [hl K, hl' K, hsum]

/-- C4 witness: merging the two example profiles in either order yields the
same mapping (in particular the merged count of the shared key). -/
theorem merge_perm_invariant_witness :
    ∃ m m', mergeProfiles [demoP1, demoP2] = .ok m ∧
      mergeProfiles [demoP2, demoP1] = .ok m' ∧
      ∀ K, lookup0 m K = lookup0 m' K :=
  merge_perm_invariant [demoP1, demoP2] [demoP2, demoP1]
    (List.Perm.swap demoP2 demoP1 []) (by decide)

/-! ## The check-execution scheduler (`run`)

`run` (current main package lines 305-348, identically the legacy
`pre-commit-go.go` lines 784-849) starts one goroutine per enabled check,
posting to a channel `errs := make(chan error, len(enabledChecks))`:

    err := check.Run()
    duration := time.Now().Sub(start)
    if err != nil { errs <- err }
    max := check.GetMaxDuration()
    if max == 0 { max = config.MaxDuration }
    if duration > time.Duration(max)*time.Second {
      errs <- fmt.Errorf("check %s took %1.2fs", check.GetName(), duration.Seconds())
    }

and after `wg.Wait()` drains `errs` with a non-blocking `select` loop,
printing each drained error, and returns `fmt.Errorf("checks failed in
%1.2fs", ...)` when at least one error was drained (posted errors are always
non-nil), `nil` otherwise.

Durations are nanoseconds (`time.Duration`), modelled as `Nat`; each check's
measured outcome (error from `Run` and elapsed time) is an input of the
model. The interleaving order of channel posts across goroutines is not
fixed; the queue is modelled as the per-check posts in check order — every
theorem below is insensitive to that order. -/

/-- Go `fmt`'s `%1.2f` rendering of `ns` nanoseconds as seconds: round to
centiseconds (half to even) and print with two decimals. The exact float64
rounding of `Duration.Seconds` is abstracted; no claim depends on it. -/
def fmtSecs (ns : Nat) : String :=
  let q := ns / 10000000
  let r := ns % 10000000
  let c := if r > 5000000 then q + 1 else if r < 5000000 then q else if q % 2 = 0 then q else q + 1
  toString (c / 100) ++ "." ++ (if c % 100 < 10 then "0" else "") ++ toString (c % 100)

/-- The synthetic budget error `"check <name> took <elapsed>s"`. -/
def budgetMsg (name : String) (elapsedNs : Nat) : String :=
  "check " ++ name ++ " took " ++ fmtSecs elapsedNs ++ "s"

/-- One enabled check as the scheduler sees it: its name, configured
`maxDuration` (seconds; 0 means "use the global default"), the error its
`run` returned (`none` = success) and its measured elapsed time. -/
structure SchedCheck where
  name : String
  maxDuration : Nat
  runErr : Option String
  elapsedNs : Nat
deriving DecidableEq

/-- The errors one scheduler task posts to the result queue (source order:
the check's own error first, then the synthetic budget error). -/
def runTask (globalMax : Nat) (c : SchedCheck) : List String :=
  let posted : List String :=
    match c.runErr with
    | some e => [e]
    | none => []
  let maxd := if c.maxDuration = 0 then globalMax else c.maxDuration
  if c.elapsedNs > maxd * 1000000000 then posted ++ [budgetMsg c.name c.elapsedNs]
  else posted

/-- The effective time budget of a check, as the specification words it:
the check's own `maxDuration` when non-zero, else the global default. -/
def effectiveBudget (maxDur globalMax : Nat) : Nat :=
  if maxDur ≠ 0 then maxDur else globalMax

/-- The scheduler's drain loop: `err` is overwritten by each drained error;
once the queue is empty, a summary error is returned iff `err` is non-nil
(i.e. iff at least one error was drained). -/
def drainLoop (last : Option String) (queue : List String) (totalNs : Nat) : Option String :=
  match queue with
  | e :: rest => drainLoop (some e) rest totalNs
  | [] =>
    match last with
    | some _ => some ("checks failed in " ++ fmtSecs totalNs ++ "s")
    | none => none

/-- The whole scheduler run over the enabled checks: fan out, collect the
posted errors, drain. `totalNs` is the wall-clock duration of the whole run
measured at drain time. -/
def schedulerRun (globalMax : Nat) (checks : List SchedCheck) (totalNs : Nat) : Option String :=
  drainLoop none ((checks.map (runTask globalMax)).flatten) totalNs

theorem runTask_eq (globalMax : Nat) (c : SchedCheck) :
    runTask globalMax c =
      c.runErr.toList ++
        (if c.elapsedNs > effectiveBudget c.maxDuration globalMax * 1000000000
         then [budgetMsg c.name c.elapsedNs] else []) := by
  cases hc : c.runErr <;>
    by_cases h0 : c.maxDuration = 0 <;>
    simp [runTask, effectiveBudget, h0, hc] <;>
    split <;> simp_all

/-- C2: for every enabled check the scheduler posts the synthetic budget
error `"check <name> took <elapsed>s"` exactly when the measured elapsed
time exceeds the effective budget (the check's own `maxDuration` if
non-zero, else the global `MaxDuration`), independently of the check's own
`run` error — the posted errors are always the `run` error (if any) followed
by the budget error (if the budget was exceeded), so a check contributes
zero, one or two failures. In particular a check with `maxDuration = 1`
taking 2 seconds whose `run` succeeded still yields the budget error. -/
theorem scheduler_budget_error (globalMax : Nat) (c : SchedCheck) (n : String) :
    runTask globalMax c =
      c.runErr.toList ++
        (if c.elapsedNs > effectiveBudget c.maxDuration globalMax * 1000000000
         then [budgetMsg c.name c.elapsedNs] else [])
    ∧ runTask globalMax ⟨n, 1, none, 2000000000⟩ = [budgetMsg n 2000000000] :=
  ⟨runTask_eq globalMax c, by simp [runTask]⟩

theorem drainLoop_none (last : Option String) (queue : List String) (t : Nat) :
    drainLoop last queue t = none ↔ queue = [] ∧ last = none := by
  induction queue generalizing last with
  | nil => cases last <;> simp [drainLoop]
  | cons e rest ih => simp [drainLoop, ih]

theorem drainLoop_some (last : Option String) (queue : List String) (t : Nat) (r : String) :
    drainLoop last queue t = some r → r = "checks failed in " ++ fmtSecs t ++ "s" := by
  induction queue generalizing last with
  | nil =>
    cases last <;> simp [drainLoop]
    exact fun h => h.symm
  | cons e rest ih => exact fun h => ih (some e) h

theorem runTask_nil (globalMax : Nat) (c : SchedCheck) :
    runTask globalMax c = [] ↔
      c.runErr = none ∧
        c.elapsedNs ≤ effectiveBudget c.maxDuration globalMax * 1000000000 := by
  rw [runTask_eq]
  cases hc : c.runErr <;> simp [hc]

/-- C3: the scheduler's run returns `nil` exactly when every enabled check
succeeded within its effective budget (so that no error was posted or
drained); whenever at least one error was drained, it returns a non-nil
error whose message is `"checks failed in <total wall-clock seconds>s"` —
the individual check error messages are not part of the returned value. -/
theorem scheduler_result_summary (globalMax : Nat) (checks : List SchedCheck) (totalNs : Nat) :
    (schedulerRun globalMax checks totalNs = none ↔
      ∀ c ∈ checks, c.runErr = none ∧
        c.elapsedNs ≤ effectiveBudget c.maxDuration globalMax * 1000000000)
    ∧ ∀ r, schedulerRun globalMax checks totalNs = some r →
        r = "checks failed in " ++ fmtSecs totalNs ++ "s" := by
  constructor
  · rw [schedulerRun, drainLoop_none]
    simp only [and_true, List.flatten_eq_nil_iff, List.mem_map]
    constructor
    · rintro h c hc
      exact (runTask_nil globalMax c).mp (h _ ⟨c, hc, rfl⟩)
    · rintro h l ⟨c, hc, rfl⟩
      exact (runTask_nil globalMax c).mpr (h c hc)
  · exact fun r => drainLoop_some none _ totalNs r

/-- C3 witness: a run whose single check succeeds in 1s against the 120s
default budget returns `nil`; a run whose single check fails returns the
summary error carrying the total elapsed seconds (3.00s here). -/
theorem scheduler_result_summary_witness :
    schedulerRun 120 [⟨"gofmt", 0, none, 1000000000⟩] 3000000000 = none
    ∧ "checks failed in 3.00s" = "checks failed in " ++ fmtSecs 3000000000 ++ "s" :=
  ⟨(scheduler_result_summary 120 [⟨"gofmt", 0, none, 1000000000⟩] 3000000000).1.mpr
      (by decide),
   (scheduler_result_summary 120 [⟨"build", 0, some "go build failed", 1000000000⟩]
        3000000000).2 "checks failed in 3.00s" (by rfl)⟩

/-- Capacity of the scheduler's result queue:
`errs := make(chan error, len(enabledChecks))`. -/
def queueCapacity (checks : List SchedCheck) : Nat :=
  checks.length

/-- Total number of errors the tasks post before the drain begins. -/
def totalPosted (globalMax : Nat) (checks : List SchedCheck) : Nat :=
  ((checks.map (runTask globalMax)).flatten).length

/-- C10: the result queue is indeed bounded with capacity equal to the
number of enabled checks, but a single check that both fails and exceeds its
budget posts two errors — so with one enabled check the tasks post 2 errors
into a capacity-1 queue. The second `errs <-` send then blocks before the
deferred `wg.Done()`, `wg.Wait()` never returns, and the claim that no task
ever blocks (total posts never exceeding the capacity) is violated. -/
theorem scheduler_queue_overflow :
    totalPosted 120 [⟨"build", 1, some "go build ./... failed: exit status 1", 2000000000⟩] = 2
    ∧ queueCapacity [⟨"build", 1, some "go build ./... failed: exit status 1", 2000000000⟩] = 1 := by
  constructor
  · rfl
  · rfl

/-! ## Run levels (`Config.EnabledChecks`, current main package lines 190-199)

`CheckCommon`'s own documentation (checks package lines 58-61) states
"[0, 3]. 0 is never, 3 is always", but the enabling test is
`c.GetRunLevel() <= runLevel`. -/

/-- The identity and configured run level of one check. -/
structure CheckConf where
  name : String
  runLevel : Int
deriving DecidableEq

/-- `Config.EnabledChecks`: keep, in order, every check whose `RunLevel` is
at most the invocation run level. -/
def EnabledChecks (allChecks : List CheckConf) (runLevel : Int) : List CheckConf :=
  allChecks.filter (fun c => decide (c.runLevel ≤ runLevel))

/-- C8: contrary to the claim (and to `CheckCommon`'s own doc comment
"0 is never"), a check whose `RunLevel` is 0 is enabled at every invocation
run level in [0,3] — `0 <= R` holds for every legal `R`, so it always runs. -/
theorem enabled_checks_level_zero_runs :
    EnabledChecks [⟨"custom", 0⟩] 0 = [⟨"custom", 0⟩]
    ∧ EnabledChecks [⟨"custom", 0⟩] 1 = [⟨"custom", 0⟩]
    ∧ EnabledChecks [⟨"custom", 0⟩] 2 = [⟨"custom", 0⟩]
    ∧ EnabledChecks [⟨"custom", 0⟩] 3 = [⟨"custom", 0⟩] := by
  refine ⟨rfl, rfl, rfl, rfl⟩

/-! ## Golint.run and Govet.run (checks package lines 417-433 and 469-485,
identically legacy lines 615-631 and 639-655)

    out, _, _ := capture("golint", "./...")
    result := []string{}
    for _, line := range strings.Split(string(out), "\n") {
      for _, b := range g.Blacklist {
        if strings.Contains(line, b) { continue }
      }
      result = append(result, line)
    }
    if len(result) == 0 {
      return errors.New(strings.Join(result, "\n"))
    }
    return nil

The inner `continue` targets the blacklist loop itself, so it never skips
the append: `result` accumulates every line. And `strings.Split` always
yields at least one element, so `len(result) == 0` is impossible and the
function always returns nil. -/

/-- The `result` accumulation loop of `Golint.run`: every split line is
appended (the blacklist test is a no-op). -/
def golintResultLoop (blacklist : List String) : List (List Char) → List (List Char)
  | [] => []
  | line :: rest => line :: golintResultLoop blacklist rest

/-- `Golint.run`, as a function of the captured `golint ./...` output:
`some msg` models returning the non-nil error `errors.New(msg)`. -/
def golintRun (blacklist : List String) (out : String) : Option String :=
  let result := golintResultLoop blacklist (splitAllC '\n' out.data)
  if result.length = 0 then
    some (String.intercalate "\n" (result.map (fun l => String.mk l)))
  else none

/-- The `result` accumulation loop of `Govet.run` (same shape as golint's). -/
def govetResultLoop (blacklist : List String) : List (List Char) → List (List Char)
  | [] => []
  | line :: rest => line :: govetResultLoop blacklist rest

/-- `Govet.run`, as a function of the captured `go tool vet -all .` output. -/
def govetRun (blacklist : List String) (out : String) : Option String :=
  let result := govetResultLoop blacklist (splitAllC '\n' out.data)
  if result.length = 0 then
    some (String.intercalate "\n" (result.map (fun l => String.mk l)))
  else none

theorem splitAllGo_ne_nil (c : Char) (acc s : List Char) :
    splitAllGo c acc s ≠ [] := by
  induction s generalizing acc with
  | nil => simp [splitAllGo]
  | cons x xs ih =>
    by_cases h : x = c <;> simp [splitAllGo, h, ih]

theorem golintResultLoop_eq (blacklist : List String) (lines : List (List Char)) :
    golintResultLoop blacklist lines = lines := by
  induction lines with
  | nil => rfl
  | cons l rest ih => simp [golintResultLoop, ih]

theorem govetResultLoop_eq (blacklist : List String) (lines : List (List Char)) :
    govetResultLoop blacklist lines = lines := by
  induction lines with
  | nil => rfl
  | cons l rest ih => simp [govetResultLoop, ih]

/-- C9: contrary to the claimed output policy, `Golint.run` and `Govet.run`
never return an error, whatever the tool printed and whatever the blacklist:
the blacklist loop's `continue` never skips the append, `strings.Split`
yields at least one line, and the final test is inverted
(`len(result) == 0` guards the error return). In particular a golint
complaint about an undocumented exported function does not fail the check. -/
theorem golint_govet_never_fail :
    (∀ (blacklist : List String) (out : String), golintRun blacklist out = none)
    ∧ (∀ (blacklist : List String) (out : String), govetRun blacklist out = none)
    ∧ golintRun []
        "foo.go:1:1: exported function Foo should have comment or be unexported" = none := by
  have h1 : ∀ (blacklist : List String) (out : String), golintRun blacklist out = none := by
    intro blacklist out
    have hne := splitAllGo_ne_nil '\n' [] out.data
    simp only [golintRun, golintResultLoop_eq, splitAllC]
    simp [List.length_eq_zero, hne]
  have h2 : ∀ (blacklist : List String) (out : String), govetRun blacklist out = none := by
    intro blacklist out
    have hne := splitAllGo_ne_nil '\n' [] out.data
    simp only [govetRun, govetResultLoop_eq, splitAllC]
    simp [List.length_eq_zero, hne]
  exact ⟨h1, h2, h1 [] _⟩

/-! ## The coverage summary parse and the analyze phase of `TestCoverage.run`

The merge above is shared verbatim by both generations of the code. The
analyze phase differs:

* current (`checks` package lines 629-686): always run
  `go tool cover -func` over the merged profile, parse its output
  (returning `"malformed coverage file"` on a bad percent field, panicking
  on a missing tab field), overwrite the capture error with the threshold
  error when `total < MinimumCoverage`, drain one queued per-directory test
  failure only when the error so far is nil, and finally — only on Travis —
  run `goveralls`, whose launch error surfaces only when the error so far is
  nil;
* legacy (`pre-commit-go.go` lines 460-513): on Travis run `goveralls`
  *instead of* the summarizer and skip the threshold entirely; otherwise
  summarize and threshold as above but `panic("internal failure")` on a bad
  percent field; then drain one queued failure when the error so far is nil.

External data (queued fan-out failures, globbed profile file contents, the
captured summarizer output and launch result, the Travis flag, the goveralls
launch result) is the model's environment. `os.Getwd`/`relToGOPATH`/
`ioutil.TempDir`/`os.Open`/`os.Create` failures and the deferred
`os.RemoveAll` error are abstracted as succeeding; the channel drain is
modelled as taking the head of the queued-failure list. -/

/-- Go `strconv.ParseFloat` restricted to plain decimal notation (the only
form `go tool cover -func` emits), with the exact rational value (binary
float64 rounding abstracted): digits with an optional single point, at
least one digit overall. -/
def parseUnsigned (s : List Char) : Option ℚ :=
  let ip := s.takeWhile Char.isDigit
  let rest := s.dropWhile Char.isDigit
  let ipN : Nat := ip.foldl (fun a c => 10 * a + (c.toNat - 48)) 0
  match rest with
  | [] => if ip.isEmpty then none else some (mkRat ipN 1)
  | '.' :: frac =>
    if frac.all Char.isDigit && !(ip.isEmpty && frac.isEmpty) then
      let num : Nat := ipN * 10 ^ frac.length
        + frac.foldl (fun a c => 10 * a + (c.toNat - 48)) 0
      some (mkRat num (10 ^ frac.length))
    else none
  | _ => none

/-- `strconv.ParseFloat` with the optional leading sign. -/
def parseFloatGo (s : List Char) : Option ℚ :=
  match s with
  | '+' :: rest => parseUnsigned rest
  | '-' :: rest => (parseUnsigned rest).map Neg.neg
  | _ => parseUnsigned s

/-- Association-list model of the Go map `coverage[fn{loc, name}] = percent`
(assignment overwrites an existing key). -/
def assocSet (m : List ((List Char × List Char) × ℚ)) (k : List Char × List Char) (v : ℚ) :
    List ((List Char × List Char) × ℚ) :=
  match m with
  | [] => [(k, v)]
  | (k', v') :: rest => if k' = k then (k, v) :: rest else (k', v') :: assocSet rest k v

/-- The number of functions whose individual percent is below 100
(`partial++` loop of the source). -/
def untestedCount (cov : List ((List Char × List Char) × ℚ)) : Nat :=
  (cov.filter (fun e => decide (e.2 < 100))).length

/-- Classified outcome of one summary-output line. -/
inductive SumLine where
  /-- Header (index 0) or empty line: skipped. -/
  | skip
  /-- A missing tab field or an empty percent field: the program panics. -/
  | crash
  /-- `strconv.ParseFloat` rejected the percent field. -/
  | badFloat
  /-- The `total:` row. -/
  | totalRow (p : ℚ)
  /-- A per-function row. -/
  | fnRow (loc name : List Char) (p : ℚ)
deriving DecidableEq

/-- The literal location token of the total row. -/
def totalTag : List Char := "total:".data

/-- One iteration of the summary parse loop (`for i, line := range
strings.Split(out, "\n")`). -/
def parseSumLine (i : Nat) (line : List Char) : SumLine :=
  if i = 0 ∨ line = [] then .skip
  else
    match splitN2c '\t' line with
    | [loc, rest] =>
      match splitN2c '\t' (dropTabs rest) with
      | [name, rest2] =>
        let percentStr := dropTabs rest2
        if percentStr = [] then .crash
        else
          match parseFloatGo percentStr.dropLast with
          | none => .badFloat
          | some p => if loc = totalTag then .totalRow p else .fnRow loc name p
      | _ => .crash
    | _ => .crash

/-- Result of parsing the whole summarizer output. -/
inductive SumParse where
  /-- Loop completed: overall `total` percent and the per-function map. -/
  | ok (total : ℚ) (cov : List ((List Char × List Char) × ℚ))
  /-- A line made the program panic. -/
  | crashed
  /-- A percent field failed `strconv.ParseFloat`. -/
  | badFloat
deriving DecidableEq

/-- The summary parse loop; `total` starts at 0 and is overwritten by each
`total:` row, per-function rows update the coverage map. -/
def parseSumLines (i : Nat) (total : ℚ) (cov : List ((List Char × List Char) × ℚ)) :
    List (List Char) → SumParse
  | [] => .ok total cov
  | line :: rest =>
    match parseSumLine i line with
    | .skip => parseSumLines (i + 1) total cov rest
    | .crash => .crashed
    | .badFloat => .badFloat
    | .totalRow p => parseSumLines (i + 1) p cov rest
    | .fnRow loc name p => parseSumLines (i + 1) total (assocSet cov (loc, name) p) rest

/-- Parse of the captured `go tool cover -func` output. -/
def parseSummary (out : String) : SumParse :=
  parseSumLines 0 0 [] (splitAllC '\n' out.data)

/-- The error values `TestCoverage.run` can return, classified by their
construction site in the source. -/
inductive CovError where
  /-- A queued per-directory `go test` failure. -/
  | dirFail (msg : String)
  /-- `errors.New("no coverage found")`. -/
  | noCoverage
  /-- The merge's `strconv.Atoi` parse error. -/
  | mergeParse (field : List Char)
  /-- `fmt.Errorf("malformed coverage file")` (current version only). -/
  | malformed
  /-- The launch error of `capture("go", "tool", "cover", ...)`. -/
  | sumLaunch
  /-- The launch error of `capture("goveralls", ...)`. -/
  | uploadFail
  /-- The threshold error `"code coverage: <total>%; <n> untested functions"`. -/
  | threshold (total : ℚ) (untested : Nat)
deriving DecidableEq

/-- Outcome of `TestCoverage.run`: success, a returned error, or a panic. -/
inductive CovResult where
  | ok
  | err (e : CovError)
  | crash
deriving DecidableEq

/-- The environment of one `TestCoverage.run` invocation: everything the
check observes from the outside world. -/
structure CovEnv where
  /-- The per-directory test failures queued by the fan-out goroutines
  (messages of the runs whose exit code was non-zero), in queue order. -/
  dirFailures : List String
  /-- The contents (lists of lines) of the globbed `test*.cov` files. -/
  files : List (List String)
  /-- Whether `capture("go", "tool", "cover", "-func", ...)` returned a
  launch error. -/
  sumLaunchErr : Bool
  /-- The captured output of `go tool cover -func`. -/
  sumOut : String
  /-- The configured `MinimumCoverage`. -/
  minimum : ℚ
  /-- Whether `TRAVIS_JOB_ID` is non-empty. -/
  travis : Bool
  /-- Whether `capture("goveralls", ...)` returned a launch error. -/
  uploadErr : Bool

/-- `TestCoverage.run` of the current `checks` package (lines 532-686),
from the post-fan-out point on. -/
def covRunCurrent (env : CovEnv) : CovResult :=
  if env.files.length = 0 then
    match env.dirFailures.head? with
    | some e => .err (.dirFail e)
    | none => .err .noCoverage
  else
    match mergeProfiles env.files with
    | .crash => .crash
    | .parseError f => .err (.mergeParse f)
    | .ok _counts =>
      let err2 : Option CovError := if env.sumLaunchErr then some .sumLaunch else none
      match parseSummary env.sumOut with
      | .crashed => .crash
      | .badFloat => .err .malformed
      | .ok total cov =>
        let err2 := if total < env.minimum
          then some (.threshold total (untestedCount cov)) else err2
        let err2 := match err2 with
          | none => (env.dirFailures.head?).map CovError.dirFail
          | some e => some e
        let err2 := if env.travis then
            (match err2 with
             | none => if env.uploadErr then some CovError.uploadFail else none
             | some e => some e)
          else err2
        match err2 with
        | none => .ok
        | some e => .err e

/-- The common tail of the legacy `TestCoverage.run`:
`if err == nil { select err = <-errs }; return err`. -/
def legacyFinish (err : Option CovError) (env : CovEnv) : CovResult :=
  match err with
  | some e => .err e
  | none =>
    match env.dirFailures.head? with
    | some e => .err (.dirFail e)
    | none => .ok

/-- `TestCoverage.run` of the legacy `pre-commit-go.go` (lines 366-514),
from the post-fan-out point on. -/
def covRunLegacy (env : CovEnv) : CovResult :=
  if env.files.length = 0 then
    match env.dirFailures.head? with
    | some e => .err (.dirFail e)
    | none => .err .noCoverage
  else
    match mergeProfiles env.files with
    | .crash => .crash
    | .parseError f => .err (.mergeParse f)
    | .ok _counts =>
      if env.travis then
        legacyFinish (if env.uploadErr then some CovError.uploadFail else none) env
      else
        match parseSummary env.sumOut with
        | .crashed => .crash
        | .badFloat => .crash
        | .ok total cov =>
          let err : Option CovError := if env.sumLaunchErr then some .sumLaunch else none
          let err := if total < env.minimum
            then some (.threshold total (untestedCount cov)) else err
          legacyFinish err env

/-- The error-precedence chain the current `TestCoverage.run` actually
implements, written as a first-match priority list: (a) abort-level errors —
the no-coverage case, a merge parse error, a malformed summary — then (b)
the threshold failure, then (b') a summarizer launch error only when the
threshold passed, then (c) a queued per-directory test failure, then (d) on
Travis an upload failure only when nothing else failed. -/
def covPrecedenceSpec (env : CovEnv) : CovResult :=
  if env.files.length = 0 then
    match env.dirFailures.head? with
    | some e => .err (.dirFail e)
    | none => .err .noCoverage
  else
    match mergeProfiles env.files with
    | .crash => .crash
    | .parseError f => .err (.mergeParse f)
    | .ok _counts =>
      match parseSummary env.sumOut with
      | .crashed => .crash
      | .badFloat => .err .malformed
      | .ok total cov =>
        if total < env.minimum then .err (.threshold total (untestedCount cov))
        else if env.sumLaunchErr then .err .sumLaunch
        else
          match env.dirFailures.head? with
          | some e => .err (.dirFail e)
          | none => if env.travis && env.uploadErr then .err .uploadFail else .ok

theorem covRunCurrent_eq_spec (env : CovEnv) : covRunCurrent env = covPrecedenceSpec env := by
  unfold covRunCurrent covPrecedenceSpec
  by_cases h0 : env.files.length = 0
  · simp [h0]
  · simp only [h0, if_false]
    cases mergeProfiles env.files with
    | crash => rfl
    | parseError f => rfl
    | ok counts =>
      cases parseSummary env.sumOut with
      | crashed => rfl
      | badFloat => rfl
      | ok total cov =>
        by_cases ht : total < env.minimum
        · cases htr : env.travis <;> simp [ht, htr]
        · cases hsl : env.sumLaunchErr
          · cases hd : env.dirFailures.head? with
            | some e => cases htr : env.travis <;> simp [ht, hsl, hd, htr]
            | none =>
              cases htr : env.travis <;> cases hu : env.uploadErr <;>
                simp [ht, hsl, hd, htr, hu]
          · cases htr : env.travis <;> simp [ht, hsl, htr]

/-- C5 (amended): the coverage check's final error, when several failure
causes occur in one run, follows the priority chain of `covPrecedenceSpec`:
abort-level parse errors (merge `Atoi` failure, malformed summary, the
no-coverage case) mask everything; the threshold failure comes next and in
particular masks a summarizer *launch* error (the code overwrites the
capture error with the threshold error), reversing the claimed order for
that one pair; a summarizer launch error surfaces only when the threshold
passed; queued per-directory test failures surface only after all of the
above; an upload failure surfaces last and only on Travis. -/
theorem coverage_error_precedence (env : CovEnv) :
    covRunCurrent env = covPrecedenceSpec env :=
  covRunCurrent_eq_spec env

/-- An environment in which a category-(a) cause per the claim — an IO
error from the summarize step (`go tool cover -func` failed to launch, its
captured output is empty) — occurs together with a threshold failure
(total 0 < minimum 20). -/
def envLaunchAndThreshold : CovEnv :=
  ⟨[], [demoP1], true, "", 20, false, false⟩

/-- C5 counterexample: with both a summarizer launch error and a threshold
failure present, the check returns the *threshold* error, not the
summarizer IO error — the claimed precedence (infrastructure errors mask
threshold failures) does not hold for this pair. -/
theorem coverage_threshold_masks_summarizer_launch :
    covRunCurrent envLaunchAndThreshold = CovResult.err (CovError.threshold 0 0)
    ∧ envLaunchAndThreshold.sumLaunchErr = true := by
  exact ⟨by decide, rfl⟩

/-- `true` iff the merge completed without a parse error or panic. -/
def mergeOk : MergeResult → Bool
  | .ok _ => true
  | _ => false

/-- C7 (amended): in the legacy implementation (`pre-commit-go.go`), a
continuous-integration context (non-empty `TRAVIS_JOB_ID`) uploads the
merged profile instead of summarizing, treats an upload failure as the
check's error, and skips threshold enforcement entirely. In the current
`checks`-package implementation, threshold enforcement runs regardless of
the CI flag — a CI run with coverage below the minimum fails with the
threshold error — and the upload happens afterwards, its failure surfacing
only when no other error occurred. -/
theorem coverage_ci_behavior :
    (∀ env : CovEnv, env.travis = true → env.files.length ≠ 0 →
        mergeOk (mergeProfiles env.files) = true →
        covRunLegacy env =
          (if env.uploadErr then CovResult.err CovError.uploadFail
           else match env.dirFailures.head? with
                | some e => CovResult.err (CovError.dirFail e)
                | none => CovResult.ok))
    ∧ (∀ (env : CovEnv) (total : ℚ) (cov : List ((List Char × List Char) × ℚ)),
        env.travis = true → env.files.length ≠ 0 →
        mergeOk (mergeProfiles env.files) = true →
        parseSummary env.sumOut = .ok total cov → total < env.minimum →
        covRunCurrent env = CovResult.err (CovError.threshold total (untestedCount cov)))
    ∧ (∀ (env : CovEnv) (total : ℚ) (cov : List ((List Char × List Char) × ℚ)),
        env.travis = true → env.files.length ≠ 0 →
        mergeOk (mergeProfiles env.files) = true →
        parseSummary env.sumOut = .ok total cov → ¬ total < env.minimum →
        env.sumLaunchErr = false → env.dirFailures = [] → env.uploadErr = true →
        covRunCurrent env = CovResult.err CovError.uploadFail) := by
  refine ⟨?_, ?_, ?_⟩
  · intro env htr h0 hm
    unfold covRunLegacy
    simp only [h0, if_false]
    cases hmp : mergeProfiles env.files with
    | crash => rw [hmp] at hm; simp [mergeOk] at hm
    | parseError f => rw [hmp] at hm; simp [mergeOk] at hm
    | ok counts =>
      simp only [htr, if_true]
      cases hu : env.uploadErr <;>
        cases hd : env.dirFailures.head? <;>
        simp [legacyFinish, hu, hd]
  · intro env total cov htr h0 hm hp ht
    rw [covRunCurrent_eq_spec]
    unfold covPrecedenceSpec
    simp only [h0, if_false]
    cases hmp : mergeProfiles env.files with
    | crash => rw [hmp] at hm; simp [mergeOk] at hm
    | parseError f => rw [hmp] at hm; simp [mergeOk] at hm
    | ok counts => simp [hp, ht]
  · intro env total cov htr h0 hm hp ht hsl hd hu
    rw [covRunCurrent_eq_spec]
    unfold covPrecedenceSpec
    simp only [h0, if_false]
    cases hmp : mergeProfiles env.files with
    | crash => rw [hmp] at hm; simp [mergeOk] at hm
    | parseError f => rw [hmp] at hm; simp [mergeOk] at hm
    | ok counts => simp [hp, ht, hsl, hd, htr, hu]

/-- A legacy CI run whose `goveralls` upload fails: coverage would also be
below the minimum, but the threshold is never consulted. -/
def envLegacyUpload : CovEnv :=
  ⟨[], [demoP1], false, "", 20, true, true⟩

/-- A current-code CI run whose merged coverage (10%) is below the minimum
(20%): summary output `total: 10.0%` behind a skipped first line. -/
def envTravisLow : CovEnv :=
  ⟨[], [demoP1], false, "x\ntotal:\t(statements)\t10.0%\n", 20, true, false⟩

/-- A current-code CI run above the threshold (90% ≥ 20%) whose `goveralls`
upload fails. -/
def envTravisUpload : CovEnv :=
  ⟨[], [demoP1], false, "x\ntotal:\t(statements)\t90.0%\n", 20, true, true⟩

/-- C7 witness: the three CI behaviors at concrete environments — the
legacy check fails with the upload error (threshold skipped), the current
check fails with the threshold error despite CI, and the current check
surfaces the upload failure when nothing else failed. -/
theorem coverage_ci_behavior_witness :
    covRunLegacy envLegacyUpload = CovResult.err CovError.uploadFail
    ∧ covRunCurrent envTravisLow = CovResult.err (CovError.threshold 10 0)
    ∧ covRunCurrent envTravisUpload = CovResult.err CovError.uploadFail := by
  refine ⟨?_, ?_, ?_⟩
  · exact coverage_ci_behavior.1 envLegacyUpload rfl (by decide) (by decide)
  · exact coverage_ci_behavior.2.1 envTravisLow 10 [] rfl (by decide) (by decide)
      (by decide) (by decide)
  · exact coverage_ci_behavior.2.2 envTravisUpload 90 [] rfl (by decide) (by decide)
      (by decide) (by decide) rfl rfl rfl

/-! ## How the merge really splits a profile line (claim C6) -/

theorem splitN2Go_no_sep (c : Char) (acc s : List Char) (h : c ∉ s) :
    splitN2Go c acc s = [acc.reverse ++ s] := by
  induction s generalizing acc with
  | nil => simp [splitN2Go]
  | cons x xs ih =>
    simp only [List.mem_cons, not_or] at h
    have hx : ¬ x = c := fun hxc => h.1 hxc.symm
    simp [splitN2Go, hx, ih (x :: acc) h.2]

theorem splitN2Go_sep (c : Char) (acc a b : List Char) (h : c ∉ a) :
    splitN2Go c acc (a ++ c :: b) = [acc.reverse ++ a, b] := by
  induction a generalizing acc with
  | nil => simp [splitN2Go]
  | cons x xs ih =>
    simp only [List.mem_cons, not_or] at h
    have hx : ¬ x = c := fun hxc => h.1 hxc.symm
    simp [splitN2Go, hx, ih (x :: acc) h.2]

theorem rsplitn2_last (c : Char) (a b : List Char) (hb : c ∉ b) :
    rsplitn2 c (a ++ c :: b) = [a, b] := by
  have hrev : (a ++ c :: b).reverse = b.reverse ++ c :: a.reverse := by
    simp
  have hb' : c ∉ b.reverse := by simpa using hb
  simp [rsplitn2, splitN2c, hrev, splitN2Go_sep c [] b.reverse a.reverse hb']

theorem rsplitn2_no_sep (c : Char) (s : List Char) (h : c ∉ s) :
    rsplitn2 c s = [s] := by
  have h' : c ∉ s.reverse := by simpa using h
  simp [rsplitn2, splitN2c, splitN2Go_no_sep c [] s.reverse h']

/-- C6 (amended): for every non-header profile line that contains at least
one *space*, the merge splits it at the last space into the statement key
and the trailing field, and a trailing field that is not an integer aborts
the merge with a parse error; but a line with no space at all — e.g. a
fully tab-delimited line — makes `items[1]` index out of range, a runtime
panic, not a parse error. -/
theorem merge_split_last_space :
    (∀ (line : String) (a b : List Char),
      line.data = a ++ ' ' :: b → ' ' ∉ b →
      parseLine line = (match atoi b with
                        | some n => LineResult.ok a n
                        | none => LineResult.badCount b))
    ∧ (∀ line : String, ' ' ∉ line.data → parseLine line = .crash)
    ∧ (∀ (counts : List (List Char × Int)) (line : String) (rest : List String)
        (f : List Char),
      parseLine line = .badCount f → mergeLines counts (line :: rest) = .parseError f) := by
  refine ⟨?_, ?_, ?_⟩
  · intro line a b hline hb
    rw [parseLine, hline, rsplitn2_last ' ' a b hb]
  · intro line h
    rw [parseLine, rsplitn2_no_sep ' ' line.data h]
  · intro counts line rest f hp
    simp [mergeLines, hp]

/-- C6 counterexample: a tab-delimited profile line (no space) does not get
split on its last whitespace field — the merge loop panics on it with an
index-out-of-range instead of returning a parse error. -/
theorem merge_tab_line_crashes :
    parseLine "a.go:1.1,1.5\t2\t3" = LineResult.crash
    ∧ mergeProfiles [["mode: count", "a.go:1.1,1.5\t2\t3"]] = MergeResult.crash := by
  exact ⟨rfl, rfl⟩

/-- C6 witness: a space-delimited line with a non-integer trailing field is
split at the last space and aborts the merge with a parse error naming that
field; a line without any space panics. -/
theorem merge_split_last_space_witness :
    parseLine "a.go:1.1,1.5 2 x" = LineResult.badCount "x".data
    ∧ parseLine "abc" = LineResult.crash
    ∧ mergeLines [] ["a.go:1.1,1.5 2 x"] = MergeResult.parseError "x".data := by
  refine ⟨?_, ?_, ?_⟩
  · exact merge_split_last_space.1 "a.go:1.1,1.5 2 x" "a.go:1.1,1.5 2".data "x".data
      (by decide) (by decide)
  · exact merge_split_last_space.2.1 "abc" (by decide)
  · exact merge_split_last_space.2.2 [] "a.go:1.1,1.5 2 x" [] "x".data (by decide)

/-- C7 counterexample: in the current `checks`-package implementation, a CI
run (Travis flag set) whose merged coverage (10%) is below the minimum
(20%) fails with the *threshold* error — coverage-threshold enforcement is
not skipped when the CI flag is present, contrary to the claim. -/
theorem ci_threshold_still_enforced :
    covRunCurrent envTravisLow = CovResult.err (CovError.threshold 10 0)
    ∧ envTravisLow.travis = true := by
  exact ⟨by decide, rfl⟩
